import Mathlib

/-
Verification development for the cursor-auto-icloud repository.

Shallow embedding of the parts of the code the claims are about:
  - src/src/auth/cursor_auth_manager.py  (CursorAuthManager.update_auth)
  - src/src/auth/reset_machine.py        (MachineIDResetter.generate_new_ids,
                                          MachineIDResetter.reset_machine_ids)
  - src/src/utils/get_email_code.py      (EmailVerificationHandler)
  - src/src/core/cursor_pro_keep_alive.py (get_cursor_session_token,
                                          sign_up_account verification loop)

Machine integers do not occur; Python strings are modelled as Lean strings
or lists of characters (the relevant data is ASCII), Python None as
Option, raised exceptions as Except.
-/

namespace CursorAutoIcloud

/-! ## Keyed row stores

Both the sqlite `itemTable` used by `CursorAuthManager.update_auth`
(SELECT COUNT / INSERT / UPDATE on column `key`) and the Python dict
updated by `MachineIDResetter.reset_machine_ids` (`config.update(new_ids)`)
behave as a list of key/value rows with an insert-if-absent /
update-in-place-if-present operation.  We model that operation once,
generically in the value type. -/

/-- Rows of a keyed store: key paired with a value of type alpha. -/
abbrev Rows (α : Type) := List (String × α)

/-- Number of rows whose key equals k.  Models
`SELECT COUNT(*) FROM itemTable WHERE key = ?`. -/
def rowCount {α : Type} (st : Rows α) (k : String) : Nat :=
  (st.filter (fun r => r.1 == k)).length

/-- Replace the value of a row whose key is k, leaving other rows alone.
This is the per-row effect of `UPDATE itemTable SET value = ? WHERE key = ?`
and of a Python dict assignment to an existing key. -/
def updVal {α : Type} (k : String) (v : α) (r : String × α) : String × α :=
  if r.1 == k then (k, v) else r

/-- Insert the pair if no row with key k exists, otherwise overwrite the
value of every row keyed k in place.  Models the
check-count-then-INSERT-or-UPDATE body of `update_auth` and a Python
dict assignment. -/
def upsertRow {α : Type} (st : Rows α) (k : String) (v : α) : Rows α :=
  if rowCount st k == 0 then st ++ [(k, v)]
  else st.map (updVal k v)

/-- Apply a list of key/value updates left to right, as the
`for key, value in updates` loop of `update_auth` and as
`dict.update` do. -/
def upsertRows {α : Type} (st : Rows α) (us : Rows α) : Rows α :=
  us.foldl (fun s kv => upsertRow s kv.1 kv.2) st

/-- Value of the first row keyed k, if any. -/
def lookupRow {α : Type} (st : Rows α) (k : String) : Option α :=
  (st.find? (fun r => r.1 == k)).map (fun r => r.2)

/-- Whether some row with key k exists. -/
def hasKey {α : Type} (st : Rows α) (k : String) : Bool :=
  st.any (fun r => r.1 == k)


/-! ## CursorAuthManager (src/src/auth/cursor_auth_manager.py)

`update_auth(email, access_token, refresh_token)` builds an `updates`
list and applies each pair to the sqlite table `itemTable` with the
insert-if-absent / update-if-present discipline modelled by `upsertRow`.
Values are `Option String` because a Python `None` can be stored (the
`accessToken` row receives the raw `refresh_token` argument). -/

/-- Auth store: rows of the sqlite `itemTable`. -/
abbrev AuthStore := Rows (Option String)

/-- The `updates` list built at the top of `update_auth`.  Note the
source appends `("cursorAuth/accessToken", refresh_token)` — the
refresh token value — whenever `access_token` is not None. -/
def buildUpdates (email access_token refresh_token : Option String) :
    Rows (Option String) :=
  [("cursorAuth/cachedSignUpType", some "Auth_0")]
  ++ (match email with
      | some e => [("cursorAuth/cachedEmail", some e)]
      | none => [])
  ++ (match access_token with
      | some _ => [("cursorAuth/accessToken", refresh_token)]
      | none => [])
  ++ (match refresh_token with
      | some r => [("cursorAuth/refreshToken", some r)]
      | none => [])

/-- Model of `CursorAuthManager.update_auth` on the success path of the
database connection: returns the `True`/`False` result together with
the resulting table.  The `if not updates: return False` branch is
modelled exactly as in the source. -/
def update_auth (email access_token refresh_token : Option String)
    (st : AuthStore) : Bool × AuthStore :=
  let updates := buildUpdates email access_token refresh_token
  if updates.isEmpty then (false, st)
  else (true, upsertRows st updates)

/-! ## MachineIDResetter (src/src/auth/reset_machine.py)

`generate_new_ids` draws from `uuid.uuid4()`, `hashlib.sha256`,
`hashlib.sha512` and formats the results; `reset_machine_ids` reads the
JSON identity file, merges the four identity keys into the parsed
object with `config.update(new_ids)`, and writes the file back in place
with `open(self.db_path, "w")` followed by `json.dump`.

The random sources and digests are stdlib primitives, modelled by their
value: a `Randomness` record carries the 128-bit uuid source integers
and the 256/512-bit digest integers, and the hex/uuid formatting applied
to them is modelled exactly. -/

/-- JSON values as stored in the identity file storage.json. -/
inductive JValue : Type
  | str (s : String)
  | num (n : Int)
  | boolean (b : Bool)
  | null
deriving DecidableEq

/-- A parsed JSON object (Python dict, insertion ordered). -/
abbrev JsonObject := Rows JValue

/-- The sixteen lowercase hexadecimal digit characters. -/
def hexDigits : List Char := "0123456789abcdef".data

/-- Hex character of a digit value (defined for every Nat via mod 16). -/
def hexDigitChar (d : Nat) : Char := hexDigits.getD (d % 16) '0'

/-- Little-endian hexadecimal digits of n (empty for 0). -/
def natToHexRev (n : Nat) : List Char :=
  if h : n = 0 then []
  else hexDigitChar (n % 16) :: natToHexRev (n / 16)
decreasing_by exact Nat.div_lt_self (Nat.pos_of_ne_zero h) (by omega)

/-- Fixed-width lowercase hex rendering of n, as Python
`"%0*x" % (w, n)` produces for n below 16 to the w; this is the shape
of `hashlib.shaX(..).hexdigest()` and of `"%032x" % uuid_int`. -/
def natToHexPad (w n : Nat) : List Char :=
  let ds := (natToHexRev (n % 16 ^ w)).reverse
  List.replicate (w - ds.length) '0' ++ ds

/-- All 1 bits in the low 128 positions. -/
def mask128 : Nat := 2 ^ 128 - 1

/-- The integer of `uuid.UUID(bytes=os.urandom(16), version=4)`: the
random 128-bit value with the RFC 4122 variant bits and the version
nibble forced, exactly as CPython's `uuid.UUID.__init__` does. -/
def uuid4_int (n : Nat) : Nat :=
  let x0 := n % 2 ^ 128
  let x1 := (x0 &&& (mask128 ^^^ (0xc000 <<< 48))) ||| (0x8000 <<< 48)
  (x1 &&& (mask128 ^^^ (0xf000 <<< 64))) ||| (4 <<< 76)

/-- Characters of `str(uuid.UUID(int=n))`: 32 lowercase hex digits in
8-4-4-4-12 groups separated by dashes. -/
def uuidStringOfNat (n : Nat) : List Char :=
  let h := natToHexPad 32 n
  h.take 8 ++ '-' :: ((h.drop 8).take 4) ++ '-' :: ((h.drop 12).take 4)
    ++ '-' :: ((h.drop 16).take 4) ++ '-' :: h.drop 20

/-- Characters of `str(uuid.uuid4())` for uuid source integer n. -/
def uuid4_string (n : Nat) : List Char := uuidStringOfNat (uuid4_int n)

/-- Characters of `hashlib.sha256(..).hexdigest()` for digest value d:
the 256-bit digest rendered as exactly 64 lowercase hex characters. -/
def sha256_hexdigest (d : Nat) : List Char := natToHexPad 64 (d % 2 ^ 256)

/-- Characters of `hashlib.sha512(..).hexdigest()` for digest value d:
the 512-bit digest rendered as exactly 128 lowercase hex characters. -/
def sha512_hexdigest (d : Nat) : List Char := natToHexPad 128 (d % 2 ^ 512)

/-- Opening curly brace character. -/
def lcurly : Char := Char.ofNat 123

/-- Closing curly brace character. -/
def rcurly : Char := Char.ofNat 125

/-- The random draws consumed by one call to `generate_new_ids`. -/
structure Randomness where
  uuidSource : Nat
  sha256Digest : Nat
  sha512Digest : Nat
  sqmUuidSource : Nat

/-- Characters of the generated sqmId:
`"{" + str(uuid.uuid4()).upper() + "}"`. -/
def sqm_id_chars (n : Nat) : List Char :=
  lcurly :: (uuid4_string n).map Char.toUpper ++ [rcurly]

/-- Model of `MachineIDResetter.generate_new_ids`: the dict literal it
returns, in source order. -/
def generate_new_ids (r : Randomness) : JsonObject :=
  [("telemetry.devDeviceId", JValue.str (String.mk (uuid4_string r.uuidSource))),
   ("telemetry.macMachineId", JValue.str (String.mk (sha512_hexdigest r.sha512Digest))),
   ("telemetry.machineId", JValue.str (String.mk (sha256_hexdigest r.sha256Digest))),
   ("telemetry.sqmId", JValue.str (String.mk (sqm_id_chars r.sqmUuidSource)))]

/-- Serialization of a single JSON value (string escaping omitted: the
merged identity values contain only hex digits, dashes and braces). -/
def serializeJValue : JValue → List Char
  | .str s => '"' :: s.data ++ ['"']
  | .num n => (toString n).data
  | .boolean true => ['t', 'r', 'u', 'e']
  | .boolean false => ['f', 'a', 'l', 's', 'e']
  | .null => ['n', 'u', 'l', 'l']

/-- One `"key": value` line at indent 4. -/
def entryChars (e : String × JValue) : List Char :=
  ' ' :: ' ' :: ' ' :: ' ' :: '"' :: e.1.data ++ '"' :: ':' :: ' '
    :: serializeJValue e.2

/-- Comma-newline joined entry lines. -/
def joinEntries : JsonObject → List Char
  | [] => []
  | [e] => entryChars e
  | e :: rest => entryChars e ++ ',' :: '\n' :: joinEntries rest

/-- Model of `json.dump(config, f, indent=4)` output. -/
def json_dump_indent4 (obj : JsonObject) : List Char :=
  match obj with
  | [] => [lcurly, rcurly]
  | _ => lcurly :: '\n' :: joinEntries obj ++ '\n' :: [rcurly]

/-- Outcome of the in-place write step `open(path, "w"); json.dump`. -/
inductive WriteStep : Type
  | ok
  | fails
deriving DecidableEq

/-- Model of `MachineIDResetter.reset_machine_ids` over the identity
file state.  `fileContent` is the on-disk content before the call
(none when the file does not exist); `parsed` is the result of the
stdlib `json.load` on that content (none when it raises); `w` says
whether the write step succeeds.  Returns the on-disk content after the
call together with the boolean result.  `open(path, "w")` truncates the
file before `json.dump` writes, so a failing write leaves the file
empty; the exception is caught and False is returned.  The source makes
no backup and writes no temporary file. -/
def reset_machine_ids (fileContent : Option String)
    (parsed : Option JsonObject) (r : Randomness) (w : WriteStep) :
    Option String × Bool :=
  match fileContent with
  | none => (none, false)
  | some pre =>
    match parsed with
    | none => (some pre, false)
    | some config =>
      let new_ids := generate_new_ids r
      let config2 := upsertRows config new_ids
      match w with
      | .ok => (some (String.mk (json_dump_indent4 config2)), true)
      | .fails => (some "", false)

/-! ## EmailVerificationHandler (src/src/utils/get_email_code.py)

The body search is the Python regex
`re.search(r"(?<![a-zA-Z@.])\b\d{6}\b", body)`: six decimal digits whose
left neighbour is neither a regex word character (the digit run makes
the leading word boundary demand a non-word char on the left) nor one
of the lookbehind characters letter, at sign, dot, and whose right
neighbour is not a word character.  Bodies are ASCII, so the ASCII
character classes below coincide with the Python ones on the inputs
modelled. -/

/-- Regex word character (ASCII): letter, digit or underscore. -/
def isWordChar (c : Char) : Bool := c.isAlpha || c.isDigit || c == '_'

/-- The negative lookbehind `(?<![a-zA-Z@.])` at position i. -/
def lookbehindOk (s : List Char) (i : Nat) : Bool :=
  match i with
  | 0 => true
  | j + 1 =>
    match s.get? j with
    | some c => !(c.isAlpha || c == '@' || c == '.')
    | none => true

/-- The word boundary before the digit run at position i (position i
holds a digit, so the boundary demands a non-word char before it). -/
def boundaryBefore (s : List Char) (i : Nat) : Bool :=
  match i with
  | 0 => true
  | j + 1 =>
    match s.get? j with
    | some c => !(isWordChar c)
    | none => true

/-- The word boundary after the digit run ending at position i + 6. -/
def boundaryAfter (s : List Char) (i : Nat) : Bool :=
  match s.get? (i + 6) with
  | some c => !(isWordChar c)
  | none => true

/-- Whether the regex matches at position i of s. -/
def code_match_at (s : List Char) (i : Nat) : Bool :=
  (((s.drop i).take 6).length == 6
      && ((s.drop i).take 6).all (fun c => c.isDigit))
    && lookbehindOk s i && boundaryBefore s i && boundaryAfter s i

/-- Position of the leftmost regex match, as `re.search` finds it. -/
def first_code_index (s : List Char) : Option Nat :=
  (List.range s.length).find? (code_match_at s)

/-- The verification code `re.search(...).group()` extracts from a
body, if any. -/
def find_code (body : String) : Option String :=
  (first_code_index body.data).map
    (fun i => String.mk ((body.data.drop i).take 6))

/-- List-level prefix test (Python str startswith, used to build the
substring test below). -/
def startsWithCL : List Char → List Char → Bool
  | _, [] => true
  | [], _ :: _ => false
  | a :: as, b :: bs => a == b && startsWithCL as bs

/-- List-level substring test. -/
def containsCL : List Char → List Char → Bool
  | [], sub => sub.isEmpty
  | a :: t, sub => startsWithCL (a :: t) sub || containsCL t sub

/-- Python `sub in hay` on strings. -/
def strContains (hay sub : String) : Bool := containsCL hay.data sub.data

/-- One fetched email, with the header fields the scan reads. -/
structure EmailMessage where
  sender : String
  recipient : String
  body : String

/-- The per-message step of the scan loop in
`_get_mail_code_by_icloud_imap`: skip when the account is not in the
recipient header, when the sender is not the cursor no-reply address,
or when the extracted body is empty; otherwise search the body. -/
def try_message (account : String) (m : EmailMessage) : Option String :=
  if !(strContains m.recipient account) then none
  else if !(strContains m.sender "no-reply_at_cursor_sh") then none
  else if m.body == "" then none
  else find_code m.body

/-- The scan over the newest at most 10 messages (the loop indexes
`mail_ids[len - 1 - i]` for `i < min(10, len)`); `mailbox` is in IMAP
search order, oldest first.  Returns the first code found. -/
def scan_messages (account : String) (mailbox : List EmailMessage) :
    Option String :=
  (mailbox.reverse.take 10).findSome? (try_message account)

/-- The enclosing try/except of `_get_mail_code_by_icloud_imap` as it
acts on the outcome of the recursive call sitting inside the try block:
an exception raised by the callee is caught here and turned into a
`return None`; a normal value is returned unchanged.  The second
component accumulates the caller's own sleep count. -/
def imap_try_catch (x : Except Unit (Option String) × Nat)
    (sleeps : Nat) : Except Unit (Option String) × Nat :=
  match x with
  | (Except.error _, n) => (Except.ok none, sleeps + n)
  | (Except.ok v, n) => (Except.ok v, sleeps + n)

/-- Model of `_get_mail_code_by_icloud_imap(config, retry)` on a fixed
mailbox: sleeps 3 seconds when retry > 0, raises the
verification-code-timeout exception when retry >= 20, recurses on an
empty mailbox with retry + 1, and otherwise scans the newest messages.
The recursive call sits inside the function's own try block, so an
exception raised by it is caught by the enclosing handler, which
returns None: the first component is the raised-or-returned outcome of
this frame, the second counts the 3-second sleeps performed beneath
it. -/
def icloud_poll (account : String) (mailbox : List EmailMessage)
    (retry : Nat) : Except Unit (Option String) × Nat :=
  if _h20 : 20 ≤ retry then (Except.error (), if 0 < retry then 1 else 0)
  else if mailbox.isEmpty then
    imap_try_catch (icloud_poll account mailbox (retry + 1))
      (if 0 < retry then 1 else 0)
  else (Except.ok (scan_messages account mailbox),
    if 0 < retry then 1 else 0)
termination_by 20 - retry
decreasing_by omega

/-- The `if verify_code: return verify_code; return None` tail of
`_get_latest_mail_code`: a falsy code collapses to None, everything
else passes through. -/
def collapse_falsy (x : Except Unit (Option String) × Nat) :
    Except Unit (Option String) × Nat :=
  match x with
  | (Except.ok (some c), n) =>
    if c == "" then (Except.ok none, n) else (Except.ok (some c), n)
  | other => other

/-- Model of `_get_latest_mail_code` with the iCloud IMAP configuration
present: forwards the poll result, collapsing a falsy code to None. -/
def get_latest_mail_code (account : String)
    (mailbox : List EmailMessage) : Except Unit (Option String) × Nat :=
  collapse_falsy (icloud_poll account mailbox 0)

/-- One pass of the `for attempt in range(max_retries)` body:
`remaining` counts the attempts after the current one and `rest` is the
run of those attempts.  A caught exception or a falsy code sleeps the
outer interval and continues when attempts remain; otherwise the code
(or, on the last attempt after an exception, the re-raised error) ends
the loop. -/
def retry_or_return (res : Except Unit (Option String) × Nat)
    (remaining : Nat) (rest : Except Unit (Option String) × Nat × Nat) :
    Except Unit (Option String) × Nat × Nat :=
  match res with
  | (Except.error _, n3) =>
    if 0 < remaining then (rest.1, n3 + rest.2.1, 1 + rest.2.2)
    else (Except.error (), n3, 0)
  | (Except.ok code, n3) =>
    if 0 < remaining && (code.getD "" == "") then
      (rest.1, n3 + rest.2.1, 1 + rest.2.2)
    else (Except.ok code, n3, 0)

/-- Model of the retry loop of `get_verification_code`, indexed by the
number of attempts remaining (initially `max_retries`).  Components:
the returned-or-raised outcome, the count of inner 3-second sleeps, and
the count of outer `retry_interval` (60-second) sleeps.  On every
attempt but the last, a falsy code or a caught exception sleeps and
retries; on the last attempt the code (possibly None) is returned, or
the caught exception is re-raised. -/
def get_verification_code_loop (account : String)
    (mailbox : List EmailMessage) :
    Nat → Except Unit (Option String) × Nat × Nat
  | 0 => (Except.error (), 0, 0)
  | remaining + 1 =>
    retry_or_return (get_latest_mail_code account mailbox) remaining
      (get_verification_code_loop account mailbox remaining)

/-- Model of `get_verification_code()` with its default arguments
`max_retries=5, retry_interval=60`. -/
def get_verification_code (account : String)
    (mailbox : List EmailMessage) : Except Unit (Option String) × Nat × Nat :=
  get_verification_code_loop account mailbox 5

/-! ## get_cursor_session_token (src/src/core/cursor_pro_keep_alive.py)

The loop reads the tab's cookies, looks for the cookie named
`WorkosCursorSessionToken` and returns
`cookie["value"].split("%3A%3A")[1]`.  With a static cookie set the
retries change nothing: no matching cookie (or an IndexError from a
short split, which the except swallows) exhausts the attempts and falls
through to `return None`. -/

/-- Structural split: at each position, a separator match cuts a group
and skips the separator, otherwise the character joins the current
group.  The fuel is at least the length of the remaining input, so the
zero-fuel row is never reached from `split_on`. -/
def splitFuel (sep : List Char) : Nat → List Char → List (List Char)
  | _, [] => [[]]
  | 0, s => [s]
  | fuel + 1, c :: rest =>
    if startsWithCL (c :: rest) sep then
      [] :: splitFuel sep fuel ((c :: rest).drop sep.length)
    else
      match splitFuel sep fuel rest with
      | [] => [[c]]
      | g :: gs => (c :: g) :: gs

/-- Python `value.split(sep)` for a non-empty separator: the groups
between non-overlapping leftmost occurrences of sep. -/
def split_on (s sep : String) : List String :=
  (splitFuel sep.data s.data.length s.data).map String.mk

/-- One browser cookie. -/
structure BrowserCookie where
  name : String
  value : String
deriving DecidableEq

/-- First cookie named WorkosCursorSessionToken, as the for loop finds
it. -/
def find_session_cookie (cookies : List BrowserCookie) :
    Option BrowserCookie :=
  cookies.find? (fun c => c.name == "WorkosCursorSessionToken")

/-- Model of `get_cursor_session_token` over a static cookie set. -/
def get_cursor_session_token (cookies : List BrowserCookie) :
    Option String :=
  match find_session_cookie cookies with
  | some c => (split_on c.value "%3A%3A").get? 1
  | none => none

/-! ## The email-verification loop of sign_up_account
(src/src/core/cursor_pro_keep_alive.py, lines 283-306)

`while True:` — each iteration observes the page: the "Account
Settings" marker breaks out, the `@data-index=0` marker triggers a code
fetch (a falsy code returns False, otherwise the code is typed and the
loop breaks), any exception is caught and the loop continues.  There is
no iteration counter and no timeout in this loop. -/

/-- What one iteration observes on the page. -/
structure PageObs where
  accountReady : Bool
  codeInput : Bool

/-- How a run of the loop ends — or that it is still running after the
allotted number of iterations. -/
inductive SignUpOutcome : Type
  | accountReady
  | codeEntered (code : String)
  | fetchFailed
  | running
deriving DecidableEq

/-- Model of the verification `while True:` loop: `obs i` is what
iteration i observes, `fetch i` the outcome of the code fetch should
iteration i perform one (an exception is caught by the loop and the
loop continues).  The first argument of the recursion is the number of
iterations still allowed to run; the source loop has no such cap, which
is exactly what theorem C2 below is about. -/
def sign_up_verification_loop (obs : Nat → PageObs)
    (fetch : Nat → Except Unit (Option String)) :
    Nat → Nat → SignUpOutcome
  | 0, _ => .running
  | fuel + 1, i =>
    if (obs i).accountReady then .accountReady
    else if (obs i).codeInput then
      match fetch i with
      | .error _ => sign_up_verification_loop obs fetch fuel (i + 1)
      | .ok code =>
        if code.getD "" == "" then .fetchFailed
        else .codeEntered (code.getD "")
    else sign_up_verification_loop obs fetch fuel (i + 1)

/-- Lowercase hexadecimal digit character (0-9, a-f). -/
def isLowerHexDigit (c : Char) : Bool := c.isDigit || ('a' ≤ c && c ≤ 'f')

/-- Uppercase hexadecimal digit character (0-9, A-F). -/
def isUpperHexDigit (c : Char) : Bool := c.isDigit || ('A' ≤ c && c ≤ 'F')

/-- Syntactic UUID shape: five dash-separated groups of lengths
8-4-4-4-12 whose characters all satisfy the given hex-digit test. -/
def IsUUIDChars (hexOK : Char → Bool) (s : List Char) : Prop :=
  ∃ a b c d e : List Char,
    s = a ++ '-' :: b ++ '-' :: c ++ '-' :: d ++ '-' :: e
    ∧ a.length = 8 ∧ b.length = 4 ∧ c.length = 4 ∧ d.length = 4
    ∧ e.length = 12
    ∧ a.all hexOK = true ∧ b.all hexOK = true ∧ c.all hexOK = true
    ∧ d.all hexOK = true ∧ e.all hexOK = true

/-- Syntactically valid lowercase UUID. -/
def IsLowerUUID (s : List Char) : Prop := IsUUIDChars isLowerHexDigit s

/-- Syntactically valid uppercase UUID. -/
def IsUpperUUID (s : List Char) : Prop := IsUUIDChars isUpperHexDigit s

section RowLemmas

variable {α : Type}

theorem updVal_fst (k : String) (v : α) (r : String × α) :
    (updVal k v r).1 = r.1 := by
  unfold updVal
  by_cases h : (r.1 == k) = true
  · rw [if_pos h]
    exact (beq_iff_eq.mp h).symm
  · rw [if_neg h]

theorem updVal_of_ne {k : String} {r : String × α} (h : (r.1 == k) = false)
    (v : α) : updVal k v r = r := by
  unfold updVal
  rw [h]
  rfl

theorem rowCount_map_updVal (st : Rows α) (k' k : String) (v : α) :
    rowCount (st.map (updVal k v)) k' = rowCount st k' := by
  induction st with
  | nil => rfl
  | cons a tl ih =>
    simp only [List.map_cons, rowCount, List.filter_cons, updVal_fst] at ih ⊢
    cases h : (a.1 == k') <;> simp [h, ih]

theorem rowCount_append_single_self (st : Rows α) (k : String) (v : α) :
    rowCount (st ++ [(k, v)]) k = rowCount st k + 1 := by
  simp [rowCount, List.filter_append]

theorem rowCount_append_single_other (st : Rows α) {k k' : String}
    (hne : k' ≠ k) (v : α) :
    rowCount (st ++ [(k, v)]) k' = rowCount st k' := by
  have h : (((k, v)).1 == k') = false :=
    beq_eq_false_iff_ne.mpr fun hkk => hne hkk.symm
  simp [rowCount, List.filter_append, h]

theorem rowCount_upsertRow_self_of_le_one {st : Rows α} {k : String}
    (h : rowCount st k ≤ 1) (v : α) :
    rowCount (upsertRow st k v) k = 1 := by
  unfold upsertRow
  by_cases hz : rowCount st k = 0
  · have : (rowCount st k == 0) = true := beq_iff_eq.mpr hz
    rw [this, if_pos rfl, rowCount_append_single_self, hz]
  · have : (rowCount st k == 0) = false := beq_eq_false_iff_ne.mpr hz
    rw [this]
    simp only [Bool.false_eq_true, if_false]
    rw [rowCount_map_updVal]
    omega

theorem rowCount_upsertRow_pos (st : Rows α) (k : String) (v : α) :
    rowCount (upsertRow st k v) k ≠ 0 := by
  unfold upsertRow
  by_cases hz : rowCount st k = 0
  · have : (rowCount st k == 0) = true := beq_iff_eq.mpr hz
    rw [this, if_pos rfl, rowCount_append_single_self]
    omega
  · have : (rowCount st k == 0) = false := beq_eq_false_iff_ne.mpr hz
    rw [this]
    simp only [Bool.false_eq_true, if_false]
    rw [rowCount_map_updVal]
    exact hz

theorem rowCount_upsertRow_other (st : Rows α) {k k' : String}
    (hne : k' ≠ k) (v : α) :
    rowCount (upsertRow st k v) k' = rowCount st k' := by
  unfold upsertRow
  by_cases hz : (rowCount st k == 0) = true
  · rw [if_pos hz]
    exact rowCount_append_single_other st hne v
  · rw [if_neg hz]
    exact rowCount_map_updVal st k' k v

theorem hasKey_iff_rowCount_ne_zero (st : Rows α) (k : String) :
    hasKey st k = true ↔ rowCount st k ≠ 0 := by
  unfold hasKey rowCount
  rw [List.any_eq_true]
  constructor
  · rintro ⟨r, hr, hrk⟩ hlen
    rw [List.length_eq_zero] at hlen
    have : r ∈ List.filter (fun r => r.1 == k) st := by
      rw [List.mem_filter]
      exact ⟨hr, hrk⟩
    rw [hlen] at this
    exact absurd this (List.not_mem_nil r)
  · intro hlen
    rcases List.exists_mem_of_length_pos (Nat.pos_of_ne_zero hlen) with ⟨r, hr⟩
    rw [List.mem_filter] at hr
    exact ⟨r, hr.1, hr.2⟩

theorem hasKey_upsertRow_self (st : Rows α) (k : String) (v : α) :
    hasKey (upsertRow st k v) k = true :=
  (hasKey_iff_rowCount_ne_zero _ _).mpr (rowCount_upsertRow_pos st k v)

theorem hasKey_upsertRow_mono {st : Rows α} {k' : String}
    (h : hasKey st k' = true) (k : String) (v : α) :
    hasKey (upsertRow st k v) k' = true := by
  by_cases hk : k' = k
  · subst hk
    exact hasKey_upsertRow_self st k' v
  · rw [hasKey_iff_rowCount_ne_zero] at h ⊢
    rw [rowCount_upsertRow_other st hk v]
    exact h

theorem hasKey_upsertRows_mono {st : Rows α} {k' : String}
    (h : hasKey st k' = true) (us : Rows α) :
    hasKey (upsertRows st us) k' = true := by
  induction us generalizing st with
  | nil => simpa [upsertRows]
  | cons u tl ih =>
    simp only [upsertRows, List.foldl]
    exact ih (hasKey_upsertRow_mono h u.1 u.2)

theorem find?_map_updVal_other (st : Rows α) {k k' : String}
    (hne : k' ≠ k) (v : α) :
    (st.map (updVal k v)).find? (fun r => r.1 == k') =
      st.find? (fun r => r.1 == k') := by
  induction st with
  | nil => rfl
  | cons a tl ih =>
    rw [List.map_cons]
    cases h : (a.1 == k') with
    | true =>
      have ha1 : a.1 = k' := beq_iff_eq.mp h
      have hak : (a.1 == k) = false :=
        beq_eq_false_iff_ne.mpr (by rw [ha1]; exact hne)
      rw [updVal_of_ne hak]
      have e1 : List.find? (fun r => r.1 == k')
          (a :: List.map (updVal k v) tl) = some a :=
        List.find?_cons_of_pos _ h
      have e2 : List.find? (fun r => r.1 == k') (a :: tl) = some a :=
        List.find?_cons_of_pos _ h
      rw [e1, e2]
    | false =>
      have hfst : ((updVal k v a).1 == k') = false := by
        rw [updVal_fst]
        exact h
      have e1 : List.find? (fun r => r.1 == k')
          (updVal k v a :: List.map (updVal k v) tl) =
          List.find? (fun r => r.1 == k') (List.map (updVal k v) tl) :=
        List.find?_cons_of_neg _ (by simp [hfst])
      have e2 : List.find? (fun r => r.1 == k') (a :: tl) =
          List.find? (fun r => r.1 == k') tl :=
        List.find?_cons_of_neg _ (by simp [h])
      rw [e1, e2, ih]

theorem find?_map_updVal_self {st : Rows α} {k : String}
    (h : rowCount st k ≠ 0) (v : α) :
    (st.map (updVal k v)).find? (fun r => r.1 == k) = some (k, v) := by
  induction st with
  | nil => simp [rowCount] at h
  | cons a tl ih =>
    rw [List.map_cons]
    cases ha : (a.1 == k) with
    | true =>
      have hupd : updVal k v a = (k, v) := by
        unfold updVal
        rw [ha]
        rfl
      rw [hupd]
      have e1 : List.find? (fun r => r.1 == k)
          (((k, v) : String × α) :: List.map (updVal k v) tl) = some (k, v) :=
        List.find?_cons_of_pos _ (by simp)
      rw [e1]
    | false =>
      have hfst : ((updVal k v a).1 == k) = false := by
        rw [updVal_fst]
        exact ha
      have e1 : List.find? (fun r => r.1 == k)
          (updVal k v a :: List.map (updVal k v) tl) =
          List.find? (fun r => r.1 == k) (List.map (updVal k v) tl) :=
        List.find?_cons_of_neg _ (by simp [hfst])
      rw [e1]
      have htl : rowCount tl k ≠ 0 := by
        simp only [rowCount, List.filter_cons, ha] at h
        simpa [rowCount] using h
      exact ih htl

theorem rowCount_eq_zero_find?_none {st : Rows α} {k : String}
    (h : rowCount st k = 0) : st.find? (fun r => r.1 == k) = none := by
  induction st with
  | nil => rfl
  | cons a tl ih =>
    simp only [rowCount, List.filter_cons] at h
    cases hk : (a.1 == k) with
    | true => simp [hk] at h
    | false =>
      have e1 : List.find? (fun r => r.1 == k) (a :: tl) =
          List.find? (fun r => r.1 == k) tl :=
        List.find?_cons_of_neg _ (by simp [hk])
      rw [e1]
      apply ih
      simpa [rowCount, hk] using h

theorem lookupRow_upsertRow_self (st : Rows α) (k : String) (v : α) :
    lookupRow (upsertRow st k v) k = some v := by
  unfold upsertRow
  by_cases hz : rowCount st k = 0
  · have hb : (rowCount st k == 0) = true := beq_iff_eq.mpr hz
    rw [hb, if_pos rfl]
    unfold lookupRow
    rw [List.find?_append, rowCount_eq_zero_find?_none hz]
    simp
  · have hb : (rowCount st k == 0) = false := beq_eq_false_iff_ne.mpr hz
    rw [hb]
    simp only [Bool.false_eq_true, if_false]
    unfold lookupRow
    rw [find?_map_updVal_self hz v]
    rfl

theorem lookupRow_upsertRow_other (st : Rows α) {k k' : String}
    (hne : k' ≠ k) (v : α) :
    lookupRow (upsertRow st k v) k' = lookupRow st k' := by
  unfold upsertRow
  by_cases hz : (rowCount st k == 0) = true
  · rw [if_pos hz]
    unfold lookupRow
    rw [List.find?_append]
    cases hf : st.find? (fun r => r.1 == k') with
    | some r => simp
    | none =>
      have hkk : (((k, v) : String × α).1 == k') = false :=
        beq_eq_false_iff_ne.mpr fun hq => hne hq.symm
      have e1 : List.find? (fun r => r.1 == k') [((k, v) : String × α)] =
          List.find? (fun r => r.1 == k') ([] : Rows α) :=
        List.find?_cons_of_neg _ (by simp [hkk])
      simp [e1]
  · rw [if_neg hz]
    unfold lookupRow
    rw [find?_map_updVal_other st hne v]

end RowLemmas

section AuthLemmas

theorem upsertRows_nil {α : Type} (st : Rows α) : upsertRows st [] = st := rfl

theorem upsertRows_cons {α : Type} (st : Rows α) (u : String × α)
    (us : Rows α) :
    upsertRows st (u :: us) = upsertRows (upsertRow st u.1 u.2) us := rfl

theorem lookupRow_upsertRows_no_key {α : Type} {us : Rows α} {k : String}
    (h : ∀ u ∈ us, u.1 ≠ k) (st : Rows α) :
    lookupRow (upsertRows st us) k = lookupRow st k := by
  induction us generalizing st with
  | nil => rfl
  | cons u tl ih =>
    rw [upsertRows_cons]
    rw [ih (fun x hx => h x (List.mem_cons_of_mem u hx))]
    exact lookupRow_upsertRow_other st
      (fun hq => h u (List.mem_cons_self u tl) hq.symm) u.2

theorem rowCount_upsertRows_eq_one_of_eq_one {α : Type} {st : Rows α}
    {k : String} (h : rowCount st k = 1) (us : Rows α) :
    rowCount (upsertRows st us) k = 1 := by
  induction us generalizing st with
  | nil => exact h
  | cons u tl ih =>
    rw [upsertRows_cons]
    by_cases huk : u.1 = k
    · apply ih
      rw [← huk]
      exact rowCount_upsertRow_self_of_le_one (by rw [huk]; omega) u.2
    · apply ih
      rw [rowCount_upsertRow_other st (fun hq => huk hq.symm) u.2]
      exact h

theorem rowCount_upsertRows_eq_one_of_mem {α : Type} {us : Rows α}
    {k : String} (hmem : ∃ v, (k, v) ∈ us) {st : Rows α}
    (h : rowCount st k ≤ 1) :
    rowCount (upsertRows st us) k = 1 := by
  induction us generalizing st with
  | nil =>
    rcases hmem with ⟨v, hv⟩
    exact absurd hv (List.not_mem_nil _)
  | cons u tl ih =>
    rw [upsertRows_cons]
    by_cases huk : u.1 = k
    · apply rowCount_upsertRows_eq_one_of_eq_one
      rw [← huk]
      exact rowCount_upsertRow_self_of_le_one (by rw [huk]; exact h) u.2
    · rcases hmem with ⟨v, hv⟩
      rcases List.mem_cons.mp hv with hv | hv
      · exact absurd (by rw [← hv]) huk
      · exact ih ⟨v, hv⟩
          (by rw [rowCount_upsertRow_other st (fun hq => huk hq.symm) u.2]
              exact h)

theorem buildUpdates_isEmpty_false (email access refresh : Option String) :
    (buildUpdates email access refresh).isEmpty = false := by
  rcases email <;> rcases access <;> rcases refresh <;> rfl

theorem update_auth_eq (email access refresh : Option String)
    (st : AuthStore) :
    update_auth email access refresh st =
      (true, upsertRows st (buildUpdates email access refresh)) := by
  simp only [update_auth, buildUpdates_isEmpty_false, Bool.false_eq_true,
    if_false]

theorem mem_buildUpdates_email (e : String) (access refresh : Option String) :
    ("cursorAuth/cachedEmail", (some e : Option String)) ∈
      buildUpdates (some e) access refresh := by
  rcases access <;> rcases refresh <;> simp [buildUpdates]

theorem hasKey_update_auth_marker (email access refresh : Option String)
    (st : AuthStore) :
    hasKey ((update_auth email access refresh st).2)
      "cursorAuth/cachedSignUpType" = true := by
  rw [update_auth_eq]
  have hb : buildUpdates email access refresh =
      ("cursorAuth/cachedSignUpType", (some "Auth_0" : Option String)) ::
        (buildUpdates email access refresh).tail := by
    rcases email <;> rcases access <;> rcases refresh <;> rfl
  rw [hb, upsertRows_cons]
  exact hasKey_upsertRows_mono
    (hasKey_upsertRow_self st "cursorAuth/cachedSignUpType" (some "Auth_0")) _

end AuthLemmas

section AuthClaims

set_option maxHeartbeats 1600000 in
theorem lookup_accessToken_update_auth (st : AuthStore)
    (email refresh_token : Option String) (a : String) :
    lookupRow ((update_auth email (some a) refresh_token st).2)
      "cursorAuth/accessToken" = some refresh_token := by
  rw [update_auth_eq]
  rcases email with _ | e <;> rcases refresh_token with _ | r
  · show lookupRow (upsertRows st
      [("cursorAuth/cachedSignUpType", some "Auth_0"),
       ("cursorAuth/accessToken", none)]) "cursorAuth/accessToken" = some none
    simp only [upsertRows_cons, upsertRows_nil]
    rw [lookupRow_upsertRow_self]
  · show lookupRow (upsertRows st
      [("cursorAuth/cachedSignUpType", some "Auth_0"),
       ("cursorAuth/accessToken", some r),
       ("cursorAuth/refreshToken", some r)]) "cursorAuth/accessToken"
      = some (some r)
    simp only [upsertRows_cons, upsertRows_nil]
    rw [lookupRow_upsertRow_other, lookupRow_upsertRow_self]
    decide
  · show lookupRow (upsertRows st
      [("cursorAuth/cachedSignUpType", some "Auth_0"),
       ("cursorAuth/cachedEmail", some e),
       ("cursorAuth/accessToken", none)]) "cursorAuth/accessToken" = some none
    simp only [upsertRows_cons, upsertRows_nil]
    rw [lookupRow_upsertRow_self]
  · show lookupRow (upsertRows st
      [("cursorAuth/cachedSignUpType", some "Auth_0"),
       ("cursorAuth/cachedEmail", some e),
       ("cursorAuth/accessToken", some r),
       ("cursorAuth/refreshToken", some r)]) "cursorAuth/accessToken"
      = some (some r)
    simp only [upsertRows_cons, upsertRows_nil]
    rw [lookupRow_upsertRow_other, lookupRow_upsertRow_self]
    decide

set_option maxHeartbeats 1600000 in
theorem lookup_refreshToken_update_auth (st : AuthStore)
    (email access : Option String) (r : String) :
    lookupRow ((update_auth email access (some r) st).2)
      "cursorAuth/refreshToken" = some (some r) := by
  rw [update_auth_eq]
  rcases email with _ | e <;> rcases access with _ | a
  · show lookupRow (upsertRows st
      [("cursorAuth/cachedSignUpType", some "Auth_0"),
       ("cursorAuth/refreshToken", some r)]) "cursorAuth/refreshToken"
      = some (some r)
    simp only [upsertRows_cons, upsertRows_nil]
    rw [lookupRow_upsertRow_self]
  · show lookupRow (upsertRows st
      [("cursorAuth/cachedSignUpType", some "Auth_0"),
       ("cursorAuth/accessToken", some r),
       ("cursorAuth/refreshToken", some r)]) "cursorAuth/refreshToken"
      = some (some r)
    simp only [upsertRows_cons, upsertRows_nil]
    rw [lookupRow_upsertRow_self]
  · show lookupRow (upsertRows st
      [("cursorAuth/cachedSignUpType", some "Auth_0"),
       ("cursorAuth/cachedEmail", some e),
       ("cursorAuth/refreshToken", some r)]) "cursorAuth/refreshToken"
      = some (some r)
    simp only [upsertRows_cons, upsertRows_nil]
    rw [lookupRow_upsertRow_self]
  · show lookupRow (upsertRows st
      [("cursorAuth/cachedSignUpType", some "Auth_0"),
       ("cursorAuth/cachedEmail", some e),
       ("cursorAuth/accessToken", some r),
       ("cursorAuth/refreshToken", some r)]) "cursorAuth/refreshToken"
      = some (some r)
    simp only [upsertRows_cons, upsertRows_nil]
    rw [lookupRow_upsertRow_self]

/-- C3: whenever `update_auth` is called with a non-None access_token,
the value stored under `cursorAuth/accessToken` is the refresh_token
argument (not the access_token argument); consequently, after a call
with both tokens provided, the stored accessToken equals the stored
refreshToken. -/
theorem c3_accessToken_receives_refresh_token (st : AuthStore)
    (email refresh_token : Option String) (a : String) :
    lookupRow ((update_auth email (some a) refresh_token st).2)
      "cursorAuth/accessToken" = some refresh_token
    ∧ ∀ r : String,
      lookupRow ((update_auth email (some a) (some r) st).2)
          "cursorAuth/accessToken" =
        lookupRow ((update_auth email (some a) (some r) st).2)
          "cursorAuth/refreshToken" := by
  refine ⟨lookup_accessToken_update_auth st email refresh_token a, ?_⟩
  intro r
  rw [lookup_accessToken_update_auth st email (some r) a,
    lookup_refreshToken_update_auth st email (some a) r]

/-- C6: two `update_auth` calls with the same email leave exactly one
row under `cursorAuth/cachedEmail` (the second call updates in place),
provided the table starts with at most one such row as the UNIQUE key
column guarantees; and after every successful call the signed-in marker
key `cursorAuth/cachedSignUpType` is present. -/
theorem c6_email_upsert_no_duplicate (st : AuthStore) (e : String)
    (a1 r1 a2 r2 : Option String)
    (h : rowCount st "cursorAuth/cachedEmail" ≤ 1) :
    rowCount ((update_auth (some e) a2 r2
        ((update_auth (some e) a1 r1 st).2)).2) "cursorAuth/cachedEmail" = 1
    ∧ ∀ (email access refresh : Option String) (st' : AuthStore),
      hasKey ((update_auth email access refresh st').2)
        "cursorAuth/cachedSignUpType" = true := by
  constructor
  · rw [update_auth_eq, update_auth_eq]
    apply rowCount_upsertRows_eq_one_of_mem
      ⟨some e, mem_buildUpdates_email e a2 r2⟩
    exact le_of_eq (rowCount_upsertRows_eq_one_of_mem
      ⟨some e, mem_buildUpdates_email e a1 r1⟩ h)
  · intro email access refresh st'
    exact hasKey_update_auth_marker email access refresh st'

/-- Witness for C6 at the empty table and a concrete email. -/
theorem c6_email_upsert_no_duplicate_witness :
    rowCount ([] : AuthStore) "cursorAuth/cachedEmail" ≤ 1
    ∧ rowCount ((update_auth (some "x@icloud.com") none none
        ((update_auth (some "x@icloud.com") none none
          ([] : AuthStore)).2)).2) "cursorAuth/cachedEmail" = 1 :=
  ⟨by decide,
   (c6_email_upsert_no_duplicate [] "x@icloud.com" none none none none
      (by decide)).1⟩

/-- C10: the updates list always contains the signed-in marker pair, so
the empty-updates failure branch of `update_auth` is unreachable: every
call that reaches the store returns True, and the all-None call writes
exactly the one marker row. -/
theorem c10_marker_always_present :
    (∀ email access refresh : Option String,
      ("cursorAuth/cachedSignUpType", (some "Auth_0" : Option String)) ∈
          buildUpdates email access refresh
        ∧ (buildUpdates email access refresh).isEmpty = false)
    ∧ (∀ (email access refresh : Option String) (st : AuthStore),
        (update_auth email access refresh st).1 = true)
    ∧ ∀ st : AuthStore,
        update_auth none none none st =
          (true, upsertRow st "cursorAuth/cachedSignUpType"
            (some "Auth_0")) := by
  refine ⟨fun email access refresh => ⟨?_, buildUpdates_isEmpty_false _ _ _⟩,
    fun email access refresh st => ?_, fun st => rfl⟩
  · rcases email <;> rcases access <;> rcases refresh <;>
      simp [buildUpdates]
  · rw [update_auth_eq]

end AuthClaims

section ResetClaims

/-- C7: a successful reset merges only the four identity keys into the
parsed JSON object — `config.update(new_ids)` maps every other key to
exactly the value it had before. -/
theorem c7_reset_preserves_other_keys (config : JsonObject)
    (r : Randomness) (k : String)
    (h : k ∉ ["telemetry.devDeviceId", "telemetry.macMachineId",
        "telemetry.machineId", "telemetry.sqmId"]) :
    lookupRow (upsertRows config (generate_new_ids r)) k =
      lookupRow config k := by
  have h4 : k ≠ "telemetry.devDeviceId" ∧ k ≠ "telemetry.macMachineId"
      ∧ k ≠ "telemetry.machineId" ∧ k ≠ "telemetry.sqmId" := by
    simp only [List.mem_cons, List.not_mem_nil, or_false] at h
    push_neg at h
    exact h
  apply lookupRow_upsertRows_no_key
  intro u hu
  rcases List.mem_cons.mp hu with h1 | hu
  · rw [h1]
    exact fun hq => h4.1 hq.symm
  rcases List.mem_cons.mp hu with h1 | hu
  · rw [h1]
    exact fun hq => h4.2.1 hq.symm
  rcases List.mem_cons.mp hu with h1 | hu
  · rw [h1]
    exact fun hq => h4.2.2.1 hq.symm
  rcases List.mem_cons.mp hu with h1 | hu
  · rw [h1]
    exact fun hq => h4.2.2.2 hq.symm
  · exact absurd hu (List.not_mem_nil u)

/-- Witness for C7 at a one-row configuration and the key version. -/
theorem c7_reset_preserves_other_keys_witness :
    ("version" ∉ ["telemetry.devDeviceId", "telemetry.macMachineId",
        "telemetry.machineId", "telemetry.sqmId"])
    ∧ lookupRow (upsertRows [("version", JValue.num 1)]
        (generate_new_ids ⟨0, 0, 0, 0⟩)) "version" =
      lookupRow [("version", JValue.num 1)] "version" :=
  ⟨by decide,
   c7_reset_preserves_other_keys [("version", JValue.num 1)] ⟨0, 0, 0, 0⟩
     "version" (by decide)⟩

/-- C1 (code bug): `reset_machine_ids` writes the identity file in
place with `open(path, "w")`, which truncates before `json.dump`
writes, and makes no backup and no temporary file (its own docstring
promises a backup of the original file); so when the write step fails
after the read-merge step, the on-disk content is the empty file — not
byte-identical to the pre-call content, contradicting the spec's
guarantee.  Evaluated at a concrete pre-call content. -/
theorem c1_failed_write_leaves_truncated_file :
    reset_machine_ids (some "\x7b\"version\": 1\x7d")
        (some [("version", JValue.num 1)]) ⟨0, 0, 0, 0⟩ WriteStep.fails
      = (some "", false)
    ∧ (some "" : Option String) ≠ some "\x7b\"version\": 1\x7d" :=
  ⟨rfl, by decide⟩

end ResetClaims

section HexUuidLemmas

theorem hexDigitChar_mem (d : Nat) : hexDigitChar d ∈ hexDigits := by
  unfold hexDigitChar
  have h : d % 16 < 16 := Nat.mod_lt _ (by omega)
  generalize hg : d % 16 = m at h ⊢
  interval_cases m <;> decide

theorem hexDigits_lower : ∀ c ∈ hexDigits, isLowerHexDigit c = true := by
  decide

theorem hexDigits_toUpper :
    ∀ c ∈ hexDigits, isUpperHexDigit (Char.toUpper c) = true := by
  decide

theorem mem_natToHexRev : ∀ n : Nat, ∀ c ∈ natToHexRev n, c ∈ hexDigits := by
  intro n
  induction n using Nat.strong_induction_on with
  | _ n ih =>
    intro c hc
    unfold natToHexRev at hc
    by_cases hn : n = 0
    · rw [dif_pos hn] at hc
      exact absurd hc (List.not_mem_nil c)
    · rw [dif_neg hn] at hc
      rcases List.mem_cons.mp hc with h1 | h1
      · rw [h1]
        exact hexDigitChar_mem _
      · exact ih (n / 16)
          (Nat.div_lt_self (Nat.pos_of_ne_zero hn) (by omega)) c h1

theorem length_natToHexRev_le :
    ∀ w n : Nat, n < 16 ^ w → (natToHexRev n).length ≤ w := by
  intro w
  induction w with
  | zero =>
    intro n hn
    have hn0 : n = 0 := by simpa using hn
    subst hn0
    unfold natToHexRev
    simp
  | succ w ih =>
    intro n hn
    unfold natToHexRev
    by_cases hz : n = 0
    · rw [dif_pos hz]
      simp
    · rw [dif_neg hz]
      simp only [List.length_cons]
      have hlt : n / 16 < 16 ^ w := by
        have h16 : (0 : Nat) < 16 := by omega
        rw [Nat.div_lt_iff_lt_mul h16]
        have hp : (16 : Nat) ^ (w + 1) = 16 ^ w * 16 := by rw [pow_succ]
        omega
      have := ih (n / 16) hlt
      omega

theorem length_natToHexPad (w n : Nat) : (natToHexPad w n).length = w := by
  simp only [natToHexPad, List.length_append, List.length_replicate,
    List.length_reverse]
  have hp : 0 < 16 ^ w := pow_pos (by omega : (0 : Nat) < 16) w
  have h := length_natToHexRev_le w (n % 16 ^ w) (Nat.mod_lt _ hp)
  omega

theorem mem_natToHexPad (w n : Nat) : ∀ c ∈ natToHexPad w n, c ∈ hexDigits := by
  intro c hc
  simp only [natToHexPad, List.mem_append] at hc
  rcases hc with h1 | h1
  · rw [List.eq_of_mem_replicate h1]
    decide
  · exact mem_natToHexRev _ c (List.mem_reverse.mp h1)

theorem all_lower_of_subset_natToHexPad {w n : Nat} {l : List Char}
    (hsub : l ⊆ natToHexPad w n) : l.all isLowerHexDigit = true :=
  List.all_eq_true.mpr fun c hc =>
    hexDigits_lower c (mem_natToHexPad w n c (hsub hc))

theorem isLowerUUID_uuidStringOfNat (n : Nat) :
    IsLowerUUID (uuidStringOfNat n) := by
  have hlen := length_natToHexPad 32 n
  refine ⟨(natToHexPad 32 n).take 8, ((natToHexPad 32 n).drop 8).take 4,
    ((natToHexPad 32 n).drop 12).take 4, ((natToHexPad 32 n).drop 16).take 4,
    (natToHexPad 32 n).drop 20, rfl, ?_, ?_, ?_, ?_, ?_,
    all_lower_of_subset_natToHexPad (List.take_subset _ _),
    all_lower_of_subset_natToHexPad
      ((List.take_subset _ _).trans (List.drop_subset _ _)),
    all_lower_of_subset_natToHexPad
      ((List.take_subset _ _).trans (List.drop_subset _ _)),
    all_lower_of_subset_natToHexPad
      ((List.take_subset _ _).trans (List.drop_subset _ _)),
    all_lower_of_subset_natToHexPad (List.drop_subset _ _)⟩
  · rw [List.length_take, hlen]
    decide
  · rw [List.length_take, List.length_drop, hlen]
    decide
  · rw [List.length_take, List.length_drop, hlen]
    decide
  · rw [List.length_take, List.length_drop, hlen]
    decide
  · rw [List.length_drop, hlen]

theorem isUpperUUID_map_toUpper (k : Nat) :
    IsUpperUUID ((uuidStringOfNat k).map Char.toUpper) := by
  have hlen := length_natToHexPad 32 k
  have hdash : Char.toUpper '-' = '-' := by decide
  have hmap : (uuidStringOfNat k).map Char.toUpper =
      ((natToHexPad 32 k).take 8).map Char.toUpper ++ '-' ::
      (((natToHexPad 32 k).drop 8).take 4).map Char.toUpper ++ '-' ::
      (((natToHexPad 32 k).drop 12).take 4).map Char.toUpper ++ '-' ::
      (((natToHexPad 32 k).drop 16).take 4).map Char.toUpper ++ '-' ::
      ((natToHexPad 32 k).drop 20).map Char.toUpper := by
    simp [uuidStringOfNat, List.map_append, List.map_cons, hdash]
  have hall : ∀ l : List Char, l ⊆ natToHexPad 32 k →
      (l.map Char.toUpper).all isUpperHexDigit = true := by
    intro l hsub
    apply List.all_eq_true.mpr
    intro c hc
    rcases List.mem_map.mp hc with ⟨c0, hc0, hup⟩
    rw [← hup]
    exact hexDigits_toUpper c0 (mem_natToHexPad 32 k c0 (hsub hc0))
  refine ⟨((natToHexPad 32 k).take 8).map Char.toUpper,
    (((natToHexPad 32 k).drop 8).take 4).map Char.toUpper,
    (((natToHexPad 32 k).drop 12).take 4).map Char.toUpper,
    (((natToHexPad 32 k).drop 16).take 4).map Char.toUpper,
    ((natToHexPad 32 k).drop 20).map Char.toUpper, hmap, ?_, ?_, ?_, ?_, ?_,
    hall _ (List.take_subset _ _),
    hall _ ((List.take_subset _ _).trans (List.drop_subset _ _)),
    hall _ ((List.take_subset _ _).trans (List.drop_subset _ _)),
    hall _ ((List.take_subset _ _).trans (List.drop_subset _ _)),
    hall _ (List.drop_subset _ _)⟩
  · rw [List.length_map, List.length_take, hlen]
    decide
  · rw [List.length_map, List.length_take, List.length_drop, hlen]
    decide
  · rw [List.length_map, List.length_take, List.length_drop, hlen]
    decide
  · rw [List.length_map, List.length_take, List.length_drop, hlen]
    decide
  · rw [List.length_map, List.length_drop, hlen]

/-- C8: every generated MachineIdentity satisfies the format
constraints — devDeviceId is a syntactically valid lowercase UUID,
machineId is exactly 64 lowercase hex characters, macMachineId is
exactly 128 lowercase hex characters, and sqmId is an uppercase UUID
enclosed in curly braces. -/
theorem c8_generate_new_ids_formats (r : Randomness) :
    ∃ dev mac machine sqm : String,
      generate_new_ids r =
        [("telemetry.devDeviceId", JValue.str dev),
         ("telemetry.macMachineId", JValue.str mac),
         ("telemetry.machineId", JValue.str machine),
         ("telemetry.sqmId", JValue.str sqm)]
      ∧ IsLowerUUID dev.data
      ∧ mac.data.length = 128 ∧ mac.data.all isLowerHexDigit = true
      ∧ machine.data.length = 64 ∧ machine.data.all isLowerHexDigit = true
      ∧ ∃ u : List Char, sqm.data = lcurly :: u ++ [rcurly]
          ∧ IsUpperUUID u := by
  refine ⟨_, _, _, _, rfl, isLowerUUID_uuidStringOfNat _,
    length_natToHexPad 128 _,
    List.all_eq_true.mpr (fun c hc =>
      hexDigits_lower c (mem_natToHexPad 128 _ c hc)),
    length_natToHexPad 64 _,
    List.all_eq_true.mpr (fun c hc =>
      hexDigits_lower c (mem_natToHexPad 64 _ c hc)),
    (uuid4_string r.sqmUuidSource).map Char.toUpper, rfl,
    isUpperUUID_map_toUpper _⟩

end HexUuidLemmas

section EmailCodeClaims

/-- C4 counterexample: in the body "code 482913." the search matches at
position 5, so the matched 6-digit token ends at position 10 and the
character immediately adjacent on its right, at position 11, is a dot —
which the claim says should prevent acceptance — yet the search accepts
the token and returns it. -/
theorem c4_counterexample_dot_adjacent :
    first_code_index "code 482913.".data = some 5
    ∧ find_code "code 482913." = some "482913"
    ∧ "code 482913.".data.get? (5 + 6) = some '.' := by
  decide

/-- C4 (amended): the body search accepts a 6-digit token only if its
left neighbour (when there is one) is neither a regex word character
(letter, digit, underscore) nor an at-sign nor a dot, and its right
neighbour (when there is one) is not a word character; a right
neighbour that is an at-sign or a dot does not block the match.  The
leftmost such match is returned; in particular, for a mailbox whose
only matching message has body "Your code is 482913", the scan returns
"482913". -/
theorem c4_amended_code_search_boundaries (s : List Char) (i : Nat)
    (h : code_match_at s i = true) :
    (∀ j c, i = j + 1 → s.get? j = some c →
      isWordChar c = false ∧ c ≠ '@' ∧ c ≠ '.')
    ∧ (∀ c, s.get? (i + 6) = some c → isWordChar c = false)
    ∧ scan_messages "user@icloud.com"
        [⟨"spam", "user@icloud.com", "no code here"⟩,
         ⟨"foo no-reply_at_cursor_sh bar", "other@example.com", "999999"⟩,
         ⟨"foo no-reply_at_cursor_sh bar", "to user@icloud.com", ""⟩,
         ⟨"foo no-reply_at_cursor_sh bar", "to user@icloud.com",
           "Your code is 482913"⟩] = some "482913" := by
  simp only [code_match_at, Bool.and_eq_true] at h
  have hlb := h.1.1.2
  have hbb := h.1.2
  have hba := h.2
  refine ⟨?_, ?_, by decide⟩
  · intro j c hij hc
    subst hij
    simp only [lookbehindOk, hc, Bool.not_eq_true'] at hlb
    simp only [boundaryBefore, hc, Bool.not_eq_true'] at hbb
    rcases Bool.or_eq_false_iff.mp hlb with ⟨hrest, hdot⟩
    rcases Bool.or_eq_false_iff.mp hrest with ⟨halpha, hat⟩
    exact ⟨hbb, beq_eq_false_iff_ne.mp hat, beq_eq_false_iff_ne.mp hdot⟩
  · intro c hc
    simp only [boundaryAfter, hc, Bool.not_eq_true'] at hba
    exact hba

/-- Witness for C4 (amended) at the body " 482913", matching at
position 1. -/
theorem c4_amended_code_search_boundaries_witness :
    code_match_at " 482913".data 1 = true
    ∧ scan_messages "user@icloud.com"
        [⟨"spam", "user@icloud.com", "no code here"⟩,
         ⟨"foo no-reply_at_cursor_sh bar", "other@example.com", "999999"⟩,
         ⟨"foo no-reply_at_cursor_sh bar", "to user@icloud.com", ""⟩,
         ⟨"foo no-reply_at_cursor_sh bar", "to user@icloud.com",
           "Your code is 482913"⟩] = some "482913" :=
  ⟨by decide,
   (c4_amended_code_search_boundaries " 482913".data 1 (by decide)).2.2⟩

end EmailCodeClaims

section PollerClaims

theorem imap_try_catch_error (e : Unit) (n sleeps : Nat) :
    imap_try_catch (Except.error e, n) sleeps = (Except.ok none, sleeps + n) :=
  rfl

theorem imap_try_catch_ok (v : Option String) (n sleeps : Nat) :
    imap_try_catch (Except.ok v, n) sleeps = (Except.ok v, sleeps + n) :=
  rfl

theorem icloud_poll_empty (account : String) :
    ∀ k retry : Nat, retry + k = 20 →
      icloud_poll account [] retry =
        if k = 0 then (Except.error (), 1)
        else (Except.ok none, k + if retry = 0 then 0 else 1) := by
  intro k
  induction k with
  | zero =>
    intro retry h
    have h20 : retry = 20 := by omega
    subst h20
    rw [icloud_poll.eq_def]
    norm_num
  | succ k ih =>
    intro retry h
    have hlt : ¬ 20 ≤ retry := by omega
    rw [icloud_poll.eq_def, dif_neg hlt,
      if_pos (show ([] : List EmailMessage).isEmpty = true from rfl),
      ih (retry + 1) (by omega)]
    by_cases hk : k = 0
    · subst hk
      rw [if_pos rfl, imap_try_catch_error]
      have hne : ¬ (0 : Nat) + 1 = 0 := by omega
      rw [if_neg hne]
      by_cases hr : retry = 0
      · subst hr
        norm_num
      · have hpos : 0 < retry := Nat.pos_of_ne_zero hr
        rw [if_pos hpos, if_neg hr]
    · rw [if_neg hk]
      have hne1 : ¬ retry + 1 = 0 := by omega
      rw [if_neg hne1, imap_try_catch_ok]
      have hne2 : ¬ k + 1 = 0 := by omega
      rw [if_neg hne2]
      by_cases hr : retry = 0
      · subst hr
        norm_num
      · have hpos : 0 < retry := Nat.pos_of_ne_zero hr
        rw [if_pos hpos, if_neg hr]
        norm_num
        omega

theorem get_latest_mail_code_empty (account : String) :
    get_latest_mail_code account [] = (Except.ok none, 20) := by
  unfold get_latest_mail_code
  rw [icloud_poll_empty account 20 0 rfl]
  norm_num
  rfl

theorem retry_or_return_ok (code : Option String) (n3 remaining : Nat)
    (rest : Except Unit (Option String) × Nat × Nat) :
    retry_or_return (Except.ok code, n3) remaining rest =
      if 0 < remaining && (code.getD "" == "") then
        (rest.1, n3 + rest.2.1, 1 + rest.2.2)
      else (Except.ok code, n3, 0) := rfl

theorem get_verification_code_loop_empty (account : String) :
    ∀ n : Nat, get_verification_code_loop account [] (n + 1) =
      (Except.ok none, 20 * (n + 1), n) := by
  intro n
  induction n with
  | zero =>
    rw [show (0 + 1 : Nat) = Nat.succ 0 from rfl,
      get_verification_code_loop.eq_2, get_latest_mail_code_empty,
      retry_or_return_ok]
    norm_num
  | succ n ih =>
    rw [show (n + 1 + 1 : Nat) = Nat.succ (n + 1) from rfl,
      get_verification_code_loop.eq_2, get_latest_mail_code_empty, ih,
      retry_or_return_ok]
    have hcond : (decide (0 < n + 1) && ((none : Option String).getD ""
        == "")) = true := by
      simp
    rw [if_pos hcond]
    norm_num
    omega

/-- C5 counterexample: with a mailbox that never contains a message,
the poller's run ends by returning None — the outcome is `ok none`, not
an error — so it does not terminate with a timeout error as claimed:
the inner timeout exception raised at retry 20 is caught by the retry-19
frame's own exception handler, and the outer loop returns the falsy
code on its final attempt instead of raising. -/
theorem c5_counterexample_no_timeout_error :
    (get_verification_code "user@icloud.com" []).1 = Except.ok none
    ∧ ∀ e : Unit,
      (get_verification_code "user@icloud.com" []).1 ≠ Except.error e := by
  have h : get_verification_code "user@icloud.com" [] =
      (Except.ok none, 100, 4) := by
    unfold get_verification_code
    rw [show (5 : Nat) = 4 + 1 from rfl,
      get_verification_code_loop_empty "user@icloud.com" 4]
  rw [h]
  exact ⟨rfl, fun e hq => Except.noConfusion hq⟩

/-- C5 (amended): with an always-empty mailbox the poller performs
exactly outerAttempts times innerAttempts = 5 times 20 = 100 inner
3-second delay units (the inner loop sleeps once per retry from 1 to
20) and 4 outer 60-second delays (between the 5 outer attempts), and
then returns None without raising: the timeout exception raised when
the inner retry counter reaches 20 is swallowed by the enclosing
exception handler of the recursive caller, and the final outer attempt
returns the absent code instead of raising. -/
theorem c5_amended_empty_mailbox_returns_none (account : String) :
    get_verification_code account [] = (Except.ok none, 100, 4) := by
  unfold get_verification_code
  rw [show (5 : Nat) = 4 + 1 from rfl,
    get_verification_code_loop_empty account 4]

end PollerClaims

section TokenClaims

/-- C9: the session token acquirer locates the cookie named
WorkosCursorSessionToken, splits its value on the fixed delimiter, and
returns segment index 1 of the split; in particular, for cookie value
"AAA%3A%3ABBB" the extracted token is "BBB". -/
theorem c9_session_token_extraction (cookies : List BrowserCookie)
    (c : BrowserCookie) (h : find_session_cookie cookies = some c) :
    get_cursor_session_token cookies = (split_on c.value "%3A%3A").get? 1
    ∧ get_cursor_session_token
        [⟨"WorkosCursorSessionToken", "AAA%3A%3ABBB"⟩] = some "BBB" := by
  refine ⟨?_, by decide⟩
  unfold get_cursor_session_token
  rw [h]

/-- Witness for C9 at the single concrete cookie of the claim. -/
theorem c9_session_token_extraction_witness :
    find_session_cookie [⟨"WorkosCursorSessionToken", "AAA%3A%3ABBB"⟩] =
      some ⟨"WorkosCursorSessionToken", "AAA%3A%3ABBB"⟩
    ∧ get_cursor_session_token
        [⟨"WorkosCursorSessionToken", "AAA%3A%3ABBB"⟩] = some "BBB" :=
  ⟨by decide,
   (c9_session_token_extraction
      [⟨"WorkosCursorSessionToken", "AAA%3A%3ABBB"⟩]
      ⟨"WorkosCursorSessionToken", "AAA%3A%3ABBB"⟩ (by decide)).2⟩

end TokenClaims

section SignUpLoopClaims

theorem sign_up_loop_no_marker_runs_forever (obs : Nat → PageObs)
    (fetch : Nat → Except Unit (Option String))
    (h : ∀ j, (obs j).accountReady = false ∧ (obs j).codeInput = false) :
    ∀ fuel i, sign_up_verification_loop obs fetch fuel i =
      SignUpOutcome.running := by
  intro fuel
  induction fuel with
  | zero => intro i; rfl
  | succ fuel ih =>
    intro i
    rw [show (fuel + 1 : Nat) = Nat.succ fuel from rfl,
      sign_up_verification_loop.eq_2, (h i).1, (h i).2]
    simp only [Bool.false_eq_true, if_false]
    exact ih (i + 1)

/-- C2 counterexample: on a page-observation stream where neither the
account-ready marker nor the code-input marker ever appears, no
iteration bound makes the email-verification loop end: the loop has no
cap, raises no VerificationTimeoutError, and does not terminate. -/
theorem c2_counterexample_loop_unbounded :
    ¬ ∃ n : Nat,
      sign_up_verification_loop (fun _ => ⟨false, false⟩)
        (fun _ => Except.ok none) n 0 ≠ SignUpOutcome.running := by
  rintro ⟨n, hn⟩
  exact hn (sign_up_loop_no_marker_runs_forever _ _
    (fun j => ⟨rfl, rfl⟩) n 0)

/-- C2 (amended): the verification loop of sign_up_account has no
iteration cap and no timeout error: it can only end when some iteration
observes the account-ready marker or the code-input marker; on every
observation stream where neither marker ever appears, the loop is still
running after any number of iterations, i.e. it never terminates. -/
theorem c2_amended_loop_has_no_cap (obs : Nat → PageObs)
    (fetch : Nat → Except Unit (Option String))
    (h : ∀ j, (obs j).accountReady = false ∧ (obs j).codeInput = false)
    (fuel i : Nat) :
    sign_up_verification_loop obs fetch fuel i = SignUpOutcome.running :=
  sign_up_loop_no_marker_runs_forever obs fetch h fuel i

/-- Witness for C2 (amended) at the all-blank observation stream. -/
theorem c2_amended_loop_has_no_cap_witness :
    (∀ j : Nat, ((fun _ => PageObs.mk false false) j).accountReady = false
      ∧ ((fun _ => PageObs.mk false false) j).codeInput = false)
    ∧ sign_up_verification_loop (fun _ => PageObs.mk false false)
        (fun _ => Except.ok none) 7 0 = SignUpOutcome.running :=
  ⟨fun _ => ⟨rfl, rfl⟩,
   c2_amended_loop_has_no_cap (fun _ => PageObs.mk false false)
     (fun _ => Except.ok none) (fun _ => ⟨rfl, rfl⟩) 7 0⟩

end SignUpLoopClaims

end CursorAutoIcloud
